import Mathlib

/-!
Shallow embedding of the bitproto rendering framework:
the `Formatter` contract from `compiler/bitproto/renderer/formatter.py`,
the legacy `Formatter`, `Block` and `Renderer` from `bitproto/renderer.py`,
and theorems settling the specification claims about them.
-/

namespace Bitproto

/-- The runtime classes of definitions in the bitproto AST
(`bitproto._ast`): Proto, Message, Enum, EnumField, MessageField,
Constant, Alias, plus a catch-all for any other definition class. -/
inductive DefClass : Type where
  | proto
  | message
  | enum_
  | enumField
  | messageField
  | constant
  | alias_
  | other
deriving DecidableEq, Repr

/-- A definition node of the bitproto AST. Modelled from the spec:
`bitproto._ast` is not under `src/`; the spec says a Definition has a
`name`, an ordered `scope_stack` (root-to-immediate-parent chain of
enclosing Scopes), and a Scope is an ordered mapping of member name to
Definition. Scopes (Proto, Message, Enum) are themselves Definitions,
so one recursive node type carries class, name, ancestor chain and
member mapping. -/
inductive Defn : Type where
  | mk (cls : DefClass) (name : String) (scope_stack : List Defn)
      (members : List (String × Defn))

/-- Class of a definition. -/
def Defn.cls : Defn → DefClass
  | .mk c _ _ _ => c

/-- Name of a definition. -/
def Defn.name : Defn → String
  | .mk _ n _ _ => n

/-- Ancestor scope chain of a definition (root first). -/
def Defn.scope_stack : Defn → List Defn
  | .mk _ _ s _ => s

/-- Member mapping of a definition viewed as a scope. -/
def Defn.members : Defn → List (String × Defn)
  | .mk _ _ _ m => m

mutual

/-- Structural equality on definition nodes, standing in for Python
object comparison in `Scope.get_name_by_member`. -/
def Defn.beq : Defn → Defn → Bool
  | .mk c1 n1 s1 m1, .mk c2 n2 s2 m2 =>
      c1 == c2 && n1 == n2 && Defn.beqList s1 s2 && Defn.beqMembers m1 m2

/-- Pointwise equality of definition lists. -/
def Defn.beqList : List Defn → List Defn → Bool
  | [], [] => true
  | d1 :: t1, d2 :: t2 => Defn.beq d1 d2 && Defn.beqList t1 t2
  | _, _ => false

/-- Pointwise equality of member mappings. -/
def Defn.beqMembers : List (String × Defn) → List (String × Defn) → Bool
  | [], [] => true
  | (k1, d1) :: t1, (k2, d2) :: t2 =>
      k1 == k2 && Defn.beq d1 d2 && Defn.beqMembers t1 t2
  | _, _ => false

end

instance : BEq Defn := ⟨Defn.beq⟩

/-- Modelled from the spec: `Scope.get_name_by_member` from
`bitproto._ast` (not under `src/`). A Scope is an ordered mapping of
member name to Definition; this returns the name under which `d` is
recorded in scope `s`, if any. -/
def get_name_by_member (s : Defn) (d : Defn) : Option String :=
  (s.members.find? (fun p => Defn.beq p.2 d)).map (fun p => p.1)

/-- Python truthiness of `x or y` for an optional string `x`:
`None` and the empty string are falsy. -/
def orTruthy (o : Option String) (n : String) : String :=
  match o with
  | some s => if s.isEmpty then n else s
  | none => n

/-- Modelled from the spec: which definition classes are `BoundScope`s
(`bitproto._ast`, not under `src/`) - "any scope bound to an owning
Definition". Message and Enum scopes are bound to owning definitions;
a Proto is the top-level unit and is not. -/
def isBoundScope : DefClass → Bool
  | .message => true
  | .enum_ => true
  | _ => false

/-- Modelled from the spec: an integer Type carries a byte count
`nbytes()` (`bitproto._ast` is not under `src/`). -/
structure IntegerT : Type where
  nbytes : Nat
deriving DecidableEq, Repr

/-- The bitproto Type variants dispatched over by `format_type`:
Bool, Byte, Uint, Int, Array, Enum, Message, Alias. The `unknown`
constructor stands for any other runtime object reaching the
dispatch (Python is dynamically typed). -/
inductive PType : Type where
  | bool
  | byte
  | uint (t : IntegerT)
  | int (t : IntegerT)
  | array (element : PType) (cap : Nat)
  | enum (d : Defn)
  | message (d : Defn)
  | alias_ (d : Defn)
  | unknown

/-- The Python runtime values reaching `format_value` / `format_literal`
(`Value = Union[bool, int, str]`), plus a catch-all `unknown` for any
other runtime object. -/
inductive PyValue : Type where
  | bool (b : Bool)
  | str (s : String)
  | int (i : Int)
  | unknown

/-- Python `value is True or value is False`: true exactly for booleans. -/
def is_true_or_false : PyValue → Bool
  | .bool _ => true
  | _ => false

/-- Python `isinstance(value, str)`. -/
def isinstance_str : PyValue → Bool
  | .str _ => true
  | _ => false

/-- Python `isinstance(value, int)`: in Python `bool` is a subclass of
`int`, so booleans satisfy the integer predicate too. -/
def isinstance_int : PyValue → Bool
  | .bool _ => true
  | .int _ => true
  | _ => false

/-- The boolean content of a Python value (booleans only). -/
def PyValue.asBool : PyValue → Bool
  | .bool b => b
  | _ => false

/-- The string content of a Python value (strings only). -/
def PyValue.asStr : PyValue → String
  | .str s => s
  | _ => ""

/-- The integer content of a Python value; a Python boolean is the
integer 1 or 0. -/
def PyValue.asInt : PyValue → Int
  | .bool b => if b then 1 else 0
  | .int i => i
  | _ => 0

/-- The Constant variants dispatched over by `format_constant_type`:
BooleanConstant, StringConstant, IntegerConstant, plus a catch-all for
any other runtime object. -/
inductive ConstantV : Type where
  | booleanConstant
  | stringConstant
  | integerConstant
  | unknown
deriving DecidableEq, Repr

/-- Errors raised by the formatter: `bitproto.errors.InternalError`. -/
inductive FmtError : Type where
  | internalError (msg : String)
deriving DecidableEq, Repr

/-- Modelled from the spec: `keep_case` from `bitproto.utils` (not under
`src/`), the identity/"keep" conversion. -/
def keep_case (s : String) : String := s

/-- Modelled from the spec: `upper_case` from `bitproto.utils` (not
under `src/`), the UPPER case transform. -/
def upper_case (s : String) : String := String.mk (s.data.map Char.toUpper)

/-- Modelled from the spec: `snake_case` from `bitproto.utils` (not
under `src/`): lower-case the string, inserting an underscore before
each interior upper-case letter. -/
def snake_case (s : String) : String :=
  String.mk (s.data.foldl
    (fun acc c =>
      if c.isUpper && !acc.isEmpty then acc ++ ['_', c.toLower]
      else acc ++ [c.toLower])
    [])

/-- Modelled from the spec: `pascal_case` from `bitproto.utils` (not
under `src/`): capitalize each underscore-separated part and join. -/
def pascal_case (s : String) : String :=
  String.join ((s.splitOn "_").map (fun part =>
    match part.data with
    | [] => ""
    | c :: t => String.mk (c.toUpper :: t)))

/-- `CaseStyle` from `compiler/bitproto/renderer/formatter.py`:
KEEP, SNAKE, UPPER, PASCAL. -/
inductive CaseStyle : Type where
  | KEEP
  | SNAKE
  | UPPER
  | PASCAL
deriving DecidableEq, Repr

/-- `CaseStyle.converter`: the case converter function of a style. -/
def CaseStyle.converter : CaseStyle → (String → String)
  | .SNAKE => snake_case
  | .UPPER => upper_case
  | .PASCAL => pascal_case
  | .KEEP => keep_case

/-- `CaseStyle.from_name`: `mapping.get(name, cls.KEEP)` over the table
snake/upper/pascal - every other name yields KEEP. -/
def CaseStyle.from_name (name : String) : CaseStyle :=
  if name = "snake" then .SNAKE
  else if name = "upper" then .UPPER
  else if name = "pascal" then .PASCAL
  else .KEEP

/-- A value of the case-style mapping
(`Union[str, Tuple[str, ...], CaseStyleConverter]`): a style name, a
tuple of style names, a callable converter, or any other runtime value
(`invalid`). -/
inductive CaseEntry : Type where
  | styleName (s : String)
  | styleTuple (names : List String)
  | converter (f : String → String)
  | invalid

/-- The `Formatter` contract of `compiler/bitproto/renderer/formatter.py`:
abstract per-language hooks as function-valued fields, overridable
capability flags with their source defaults. -/
structure Formatter : Type where
  case_style_mapping : List (DefClass × CaseEntry)
  support_import_as_member : Bool
  format_bool_value : Bool → String
  format_str_value : String → String
  format_int_value : Int → String
  format_bool_type : String
  format_byte_type : String
  format_uint_type : IntegerT → String
  format_int_type : IntegerT → String
  format_array_type : PType → Option String → String
  format_bool_value_type : String
  format_string_value_type : String
  format_int_value_type : String
  delimer_cross_proto : String := "."
  delimer_inner_proto : String := "_"
  scopes_with_namespace : List DefClass := [.message, .proto]

/-- `Formatter.format_value`: the ordered dispatch
`value is True or value is False` / `isinstance(value, str)` /
`isinstance(value, int)`; the chain has no final arm, so any other
value makes the Python function return `None`. -/
def format_value (f : Formatter) (v : PyValue) : Option String :=
  if is_true_or_false v then some (f.format_bool_value v.asBool)
  else if isinstance_str v then some (f.format_str_value v.asStr)
  else if isinstance_int v then some (f.format_int_value v.asInt)
  else none

/-- `Formatter.get_nbits_of_integer`: the byte-count to bit-width table. -/
def get_nbits_of_integer (t : IntegerT) : Nat :=
  let nbytes := t.nbytes
  if nbytes = 1 then 8
  else if nbytes = 2 then 16
  else if nbytes = 3 ∨ nbytes = 4 then 32
  else if nbytes = 5 ∨ nbytes = 6 ∨ nbytes = 7 ∨ nbytes = 8 then 64
  else nbytes * 8

/-- `Formatter._get_definition_name`: the name recorded for `d` in its
innermost scope, or `d`'s own name; `d.name` when the scope stack is
empty. -/
def _get_definition_name (d : Defn) : String :=
  match d.scope_stack.getLast? with
  | none => d.name
  | some scope => orTruthy (get_name_by_member scope d) d.name

/-- The loop of `Formatter._format_definition_name_inner_proto`: walk
the namespace-defining ancestors innermost-first, prepending each
`BoundScope`'s locally-known name, stopping at a `Proto`. -/
def collectBoundNames : List Defn → List String → List String
  | [], items => items
  | ns :: rest, items =>
      if isBoundScope ns.cls then
        collectBoundNames rest (_get_definition_name ns :: items)
      else if ns.cls = .proto then items
      else collectBoundNames rest items

/-- `Formatter._format_definition_name_inner_proto`: filter the scope
stack to the namespace-defining scope classes, and when more than one
remains join the bound scopes' names innermost-outward with the
inner-proto delimiter. -/
def _format_definition_name_inner_proto (f : Formatter) (d : Defn) : String :=
  let definition_name := _get_definition_name d
  let namespaces :=
    d.scope_stack.filter (fun scope => f.scopes_with_namespace.contains scope.cls)
  if namespaces.length ≤ 1 then definition_name
  else
    String.intercalate f.delimer_inner_proto
      (collectBoundNames namespaces.reverse [definition_name])

/-- The lookup `mapping.get(class_, "keep")` of
`Formatter.format_case_style`, without the default. -/
def lookupEntry (f : Formatter) (class_ : DefClass) : Option CaseEntry :=
  (f.case_style_mapping.find? (fun p => p.1 = class_)).map (fun p => p.2)

/-- `Formatter.format_case_style`: resolve the class's entry (default
"keep"), then dispatch on its runtime shape; any other value raises
InternalError. -/
def format_case_style (f : Formatter) (s : String) (class_ : DefClass) :
    Except FmtError String :=
  match (lookupEntry f class_).getD (.styleName "keep") with
  | .styleName case_style_name =>
      .ok ((CaseStyle.from_name case_style_name).converter s)
  | .styleTuple case_style_names =>
      .ok (case_style_names.foldl
        (fun acc n => (CaseStyle.from_name n).converter acc) s)
  | .converter g => .ok (g s)
  | .invalid => .error (.internalError "invalid case_style mapping value")

/-- `Formatter.format_definition_name_inner_proto`:
`_format_definition_name_inner_proto` with case-style converting for
`class_ or d.__class__`. -/
def format_definition_name_inner_proto (f : Formatter) (d : Defn)
    (class_ : Option DefClass := none) : Except FmtError String :=
  format_case_style f (_format_definition_name_inner_proto f d) (class_.getD d.cls)

/-- `Formatter.format_definition_name`: the inner-proto name, prefixed
with the imported proto's locally-known name and the cross-proto
delimiter when the ancestor chain holds more than one Proto and the
language supports importing as a member. -/
def format_definition_name (f : Formatter) (d : Defn)
    (class_ : Option DefClass := none) : Except FmtError String := do
  let definition_name ← format_definition_name_inner_proto f d class_
  let protos := d.scope_stack.filter (fun scope => scope.cls = .proto)
  if protos.length ≤ 1 then
    return definition_name
  if !f.support_import_as_member then
    return definition_name
  match protos.getLast? with
  | some proto =>
      return String.intercalate f.delimer_cross_proto
        [_get_definition_name proto, definition_name]
  | none => return definition_name

/-- `Formatter.format_enum_type` (default): the enum's definition name. -/
def format_enum_type (f : Formatter) (d : Defn) : Except FmtError String :=
  format_definition_name f d

/-- `Formatter.format_message_name`. -/
def format_message_name (f : Formatter) (d : Defn) : Except FmtError String :=
  format_definition_name f d

/-- `Formatter.format_message_type` (default): the message's name. -/
def format_message_type (f : Formatter) (d : Defn) : Except FmtError String :=
  format_message_name f d

/-- `Formatter.format_alias_name`. -/
def format_alias_name (f : Formatter) (d : Defn) : Except FmtError String :=
  format_definition_name f d

/-- `Formatter.format_alias_type` (default): the alias's name. -/
def format_alias_type (f : Formatter) (d : Defn) : Except FmtError String :=
  format_alias_name f d

/-- `Formatter.format_type`: dispatch on the Type's variant, forwarding
`name` only to the Array hook; an unrecognized variant raises
InternalError. -/
def format_type (f : Formatter) (t : PType) (name : Option String := none) :
    Except FmtError String :=
  match t with
  | .bool => .ok f.format_bool_type
  | .byte => .ok f.format_byte_type
  | .uint it => .ok (f.format_uint_type it)
  | .int it => .ok (f.format_int_type it)
  | .array element cap => .ok (f.format_array_type (.array element cap) name)
  | .enum d => format_enum_type f d
  | .message d => format_message_type f d
  | .alias_ d => format_alias_type f d
  | .unknown => .error (.internalError "unknown type for format_type")

/-- `Formatter.format_constant_type`: dispatch on the Constant's
variant to the matching value-type hook; an unrecognized variant
raises InternalError. -/
def format_constant_type (f : Formatter) (c : ConstantV) :
    Except FmtError String :=
  match c with
  | .booleanConstant => .ok f.format_bool_value_type
  | .stringConstant => .ok f.format_string_value_type
  | .integerConstant => .ok f.format_int_value_type
  | .unknown => .error (.internalError "got unexpected constant type")

/-- The legacy `Formatter` contract of `bitproto/renderer.py`:
abstract hooks as function-valued fields; `scopes_with_namespace`
default as in the source. -/
structure LegacyFormatter : Type where
  support_import : Bool
  delimer_cross_proto : String
  delimer_inner_proto : String
  format_bool_literal : Bool → String
  format_str_literal : String → String
  format_int_literal : Int → String
  format_bool_type : String
  format_byte_type : String
  format_uint_type : IntegerT → String
  format_int_type : IntegerT → String
  format_array_type : PType → String
  scopes_with_namespace : List DefClass := [.message, .proto]

/-- `Formatter.format_literal` of `bitproto/renderer.py`: the same
ordered boolean / string / integer dispatch, with no final arm
(Python returns `None` for any other value). -/
def legacy_format_literal (f : LegacyFormatter) (v : PyValue) : Option String :=
  if is_true_or_false v then some (f.format_bool_literal v.asBool)
  else if isinstance_str v then some (f.format_str_literal v.asStr)
  else if isinstance_int v then some (f.format_int_literal v.asInt)
  else none

/-- `Formatter.nbits_from_integer_type` of `bitproto/renderer.py`:
the same byte-count to bit-width table. -/
def nbits_from_integer_type (t : IntegerT) : Nat :=
  let nbytes := t.nbytes
  if nbytes = 1 then 8
  else if nbytes = 2 then 16
  else if nbytes = 3 ∨ nbytes = 4 then 32
  else if nbytes = 5 ∨ nbytes = 6 ∨ nbytes = 7 ∨ nbytes = 8 then 64
  else nbytes * 8

/-- `Formatter.format_definition_name` of `bitproto/renderer.py`.
Faithful to the source, including the comprehension
`[scope for scope in d.scope_stack if isinstance(d, classes_)]`,
whose condition tests the definition `d` itself rather than the
iterated `scope`; the recursion descends into `namespaces[-1]`. -/
def legacy_format_definition_name (f : LegacyFormatter) : Defn → String
  | .mk cls nm stack mems =>
    match stack.getLast? with
    | none => nm
    | some scope =>
      let definition_name :=
        orTruthy (get_name_by_member scope (.mk cls nm stack mems)) nm
      let namespaces :=
        stack.filter (fun _scope => f.scopes_with_namespace.contains cls)
      if namespaces.length ≤ 1 then definition_name
      else
        match hN : namespaces.getLast? with
        | none => definition_name
        | some namespace_ =>
          have hmem : namespace_ ∈ stack := by
            have h1 : namespace_ ∈ namespaces :=
              List.mem_of_mem_getLast? (by rw [hN]; exact Option.mem_some_iff.mpr rfl)
            exact (List.mem_filter.mp h1).1
          have : sizeOf namespace_ < 1 + sizeOf cls + sizeOf nm + sizeOf stack + sizeOf mems := by
            have h3 := List.sizeOf_lt_of_mem hmem
            omega
          if namespace_.cls = .proto then
            if !f.support_import then definition_name
            else
              String.intercalate f.delimer_cross_proto
                [legacy_format_definition_name f namespace_, definition_name]
          else
            String.intercalate f.delimer_inner_proto
              [legacy_format_definition_name f namespace_, definition_name]
termination_by d => sizeOf d

/-- `Formatter.format_type` of `bitproto/renderer.py`: the same
dispatch, except the Array hook receives no name and any unrecognized
variant returns the fallback string `"_unknown_type"` instead of
raising. The enum / message / alias arms resolve the definition name
through this file's legacy hooks. -/
def legacy_format_type (f : LegacyFormatter) (t : PType) : String :=
  match t with
  | .bool => f.format_bool_type
  | .byte => f.format_byte_type
  | .uint it => f.format_uint_type it
  | .int it => f.format_int_type it
  | .array element cap => f.format_array_type (.array element cap)
  | .enum d => legacy_format_definition_name f d
  | .message d => legacy_format_definition_name f d
  | .alias_ d => legacy_format_definition_name f d
  | .unknown => "_unknown_type"

/-- The mutable line buffer of a `Block` (`self.strings`). -/
structure BlockSt : Type where
  strings : List String
deriving DecidableEq, Repr

/-- `Block.__str__`: the buffered lines joined with newlines. -/
def blockStr (st : BlockSt) : String :=
  String.intercalate "\n" st.strings

/-- `Block.clear`. -/
def blockClear (_st : BlockSt) : BlockSt := ⟨[]⟩

/-- `Block.collect`: return the buffered text and the cleared buffer. -/
def collect (st : BlockSt) : String × BlockSt :=
  (blockStr st, blockClear st)

/-- `Block.push` with the default ident 0: append a line. -/
def blockPush (st : BlockSt) (line : String) : BlockSt :=
  ⟨st.strings ++ [line]⟩

/-- Run a sequence of `push` calls. -/
def pushLines (st : BlockSt) (lines : List String) : BlockSt :=
  lines.foldl blockPush st

/-- A `Block` as `Renderer.render_string` observes it: the lines its
`render()` pushes, and the lines its `defer()` pushes - `none` models
the default `defer()` that raises `NotImplementedError`. -/
structure Block : Type where
  renderLines : List String
  deferLines : Option (List String)

/-- The render phase of one block: start from a fresh buffer, run
`render()`, then `collect()`. -/
def renderPhase (b : Block) : String × BlockSt :=
  collect (pushLines ⟨[]⟩ b.renderLines)

/-- The defer phase of one block on its current buffer: run `defer()`
and `collect()`, or `none` when `defer()` raises NotImplementedError
(caught before `collect()` is reached). -/
def deferPhase (b : Block) (st : BlockSt) : Option (String × BlockSt) :=
  b.deferLines.map (fun ls => collect (pushLines st ls))

/-- `Renderer.render_string`: collect every block's render output in
declaration order, then every block's defer output in reverse order
(skipping blocks whose `defer()` raises NotImplementedError), and join
all collected strings with `"\n\n"`. -/
def render_string (blocks : List Block) : String :=
  let step := blocks.map renderPhase
  let strings1 := step.map Prod.fst
  let states := step.map Prod.snd
  let strings2 := ((blocks.zip states).reverse).filterMap
    (fun bs => (deferPhase bs.1 bs.2).map Prod.fst)
  String.intercalate "\n\n" (strings1 ++ strings2)

/-- The renderer classes registered in `get_renderer_registry` of
`bitproto/renderer.py`. -/
inductive RendererCls : Type where
  | rendererC
  | rendererCHeader
  | rendererGo
  | rendererPy
deriving DecidableEq, Repr

/-- `get_renderer_registry`: language tag to ordered renderer classes. -/
def renderer_registry : List (String × List RendererCls) :=
  [("c", [.rendererC, .rendererCHeader]),
   ("go", [.rendererGo]),
   ("py", [.rendererPy])]

/-- `get_renderer_cls`: `registry.get(lang, None)`. -/
def get_renderer_cls (lang : String) : Option (List RendererCls) :=
  (renderer_registry.find? (fun p => p.1 = lang)).map (fun p => p.2)

/-- Observable side effects of the top-level `render`: constructing a
renderer (`renderer_cls(proto, outdir=outdir)`) and writing its output
file (`renderer.render()`). -/
inductive RenderEvent : Type where
  | construct (c : RendererCls)
  | write (path : String)
deriving DecidableEq, Repr

/-- `bitproto.errors.UnsupportedLanguageToRender`. -/
inductive RenderErr : Type where
  | unsupportedLanguageToRender
deriving DecidableEq, Repr

/-- The top-level `render(proto, lang, outdir)` of
`bitproto/renderer.py`, with each concrete renderer's output path
abstracted as `outPath` (path computation depends on the filesystem):
look up the language, raising UnsupportedLanguageToRender when absent,
otherwise construct and render each registered class in order,
returning the produced paths alongside the event trace. -/
def render (outPath : RendererCls → String) (lang : String) :
    List RenderEvent × Except RenderErr (List String) :=
  match get_renderer_cls lang with
  | none => ([], .error .unsupportedLanguageToRender)
  | some clss =>
      (clss.flatMap (fun c => [.construct c, .write (outPath c)]),
       .ok (clss.map outPath))

/-! Concrete fixtures used to evaluate the embedded functions. -/

/-- A concrete compiler formatter: empty case-style table, no member
import, simple literal hooks. -/
def cf0 : Formatter := {
  case_style_mapping := []
  support_import_as_member := false
  format_bool_value := fun b => if b then "true" else "false"
  format_str_value := fun s => s
  format_int_value := fun _ => "1"
  format_bool_type := "bool"
  format_byte_type := "byte"
  format_uint_type := fun _ => "uint"
  format_int_type := fun _ => "int"
  format_array_type := fun _ _ => "array"
  format_bool_value_type := "boolv"
  format_string_value_type := "strv"
  format_int_value_type := "intv" }

/-- A concrete legacy formatter with the default delimiters. -/
def lf0 : LegacyFormatter := {
  support_import := false
  delimer_cross_proto := "."
  delimer_inner_proto := "_"
  format_bool_literal := fun b => if b then "true" else "false"
  format_str_literal := fun s => s
  format_int_literal := fun _ => "1"
  format_bool_type := "bool"
  format_byte_type := "byte"
  format_uint_type := fun _ => "uint"
  format_int_type := fun _ => "int"
  format_array_type := fun _ => "array" }

/-- A top-level Proto scope. -/
def protoScope : Defn := .mk .proto "example" [] []

/-- A Message `Outer` directly inside the proto. -/
def outerMsg : Defn := .mk .message "Outer" [protoScope] []

/-- A Message `Inner` nested inside `Outer`. -/
def innerMsg : Defn := .mk .message "Inner" [protoScope, outerMsg] []

/-- A field `field` of `Inner`, nested two namespace levels deep. -/
def fieldDef : Defn :=
  .mk .messageField "field" [protoScope, outerMsg, innerMsg] []

/-- A top-level constant definition with an empty scope stack. -/
def constFoo : Defn := .mk .constant "foo" [] []

/-- `cf0` with an "upper" case-style entry for constants (as the C
formatter configures). -/
def cfUpper : Formatter :=
  { cf0 with case_style_mapping := [(.constant, .styleName "upper")] }

/-- `cf0` with an invalid (neither string, tuple nor callable)
case-style entry for messages. -/
def cfInvalid : Formatter :=
  { cf0 with case_style_mapping := [(.message, .invalid)] }

/-- `cf0` with a tuple case-style entry applied one by one, as the C
formatter configures for enum fields. -/
def cfTuple : Formatter :=
  { cf0 with case_style_mapping := [(.enumField, .styleTuple ["snake", "upper"])] }

/-- `cf0` with a misspelled style name for constants. -/
def cfMisspelled : Formatter :=
  { cf0 with case_style_mapping := [(.constant, .styleName "snayk")] }

/-- Decidable equality of formatter results. -/
instance : DecidableEq (Except FmtError String) := fun a b =>
  match a, b with
  | .ok x, .ok y => if h : x = y then .isTrue (by rw [h]) else .isFalse (by simp [h])
  | .error x, .error y => if h : x = y then .isTrue (by rw [h]) else .isFalse (by simp [h])
  | .ok _, .error _ => .isFalse (by simp)
  | .error _, .ok _ => .isFalse (by simp)

/-- The joining rule as the spec words it for `render_string`: all
render-phase texts, then all defer-phase texts in reverse order, joined
with one blank line between adjacent non-empty pieces (empty pieces
contribute nothing). Written from the spec for comparison with
`render_string`, which is written from the source. -/
def render_string_spec (blocks : List Block) : String :=
  String.intercalate "\n\n"
    ((blocks.map (fun b => String.intercalate "\n" b.renderLines)
      ++ blocks.reverse.filterMap
          (fun b => b.deferLines.map (String.intercalate "\n"))).filter
      (fun s => !s.isEmpty))

/-! Helper lemmas. -/

/-- Pushing a list of lines appends them to the buffer. -/
theorem pushLines_strings (ls : List String) (st : BlockSt) :
    (pushLines st ls).strings = st.strings ++ ls := by
  induction ls generalizing st with
  | nil => simp [pushLines]
  | cons l t ih =>
      simp [pushLines, List.foldl_cons, blockPush] at *
      rw [ih]
      simp

/-- The render phase of a block yields its render lines joined with
newlines, leaving an empty buffer. -/
theorem renderPhase_eq (b : Block) :
    renderPhase b = (String.intercalate "\n" b.renderLines, ⟨[]⟩) := by
  simp [renderPhase, collect, blockStr, blockClear, pushLines_strings]

/-! Claim theorems. -/

/-- C1: for the Message `Outer` containing Message `Inner` containing
`field`, with default delimiters and no cross-proto boundary, the
compiler `format_definition_name` resolves `Outer_Inner_field`, its
step 2 filtering the scope stack down to namespace-defining Scopes;
the legacy `format_definition_name` of `bitproto/renderer.py` instead
filters with `isinstance(d, classes_)` - testing the definition itself
rather than each scope, against its own docstring - and so returns the
bare `field` at the same input. -/
theorem claim_C1 :
    legacy_format_definition_name lf0 fieldDef = "field" ∧
    format_definition_name cf0 fieldDef = Except.ok "Outer_Inner_field" := by
  constructor
  · rw [fieldDef, legacy_format_definition_name]
    decide
  · rfl

/-- C2 (amended): for a Definition with empty `scope_stack`, the
compiler `format_definition_name` performs no delimiter joining but
still applies the formatter's case-style conversion for the
definition's class to its own name; the name comes back unchanged
when the class has no case-style entry; only the legacy
`format_definition_name` returns the name unchanged for every
formatter. -/
theorem claim_C2 (f : Formatter) (d : Defn) (h : d.scope_stack = []) :
    format_definition_name f d = format_case_style f d.name d.cls ∧
    (lookupEntry f d.cls = none → format_definition_name f d = Except.ok d.name) ∧
    (∀ lf : LegacyFormatter, legacy_format_definition_name lf d = d.name) := by
  obtain ⟨cls, nm, stack, mems⟩ := d
  simp only [Defn.scope_stack] at h
  subst h
  simp only [Defn.name, Defn.cls]
  have h1 : format_definition_name f (.mk cls nm [] mems)
      = format_case_style f nm cls := by
    simp [format_definition_name, format_definition_name_inner_proto,
      _format_definition_name_inner_proto, _get_definition_name,
      Defn.scope_stack, Defn.cls, Defn.name]
  refine ⟨h1, ?_, ?_⟩
  · intro hl
    rw [h1]
    simp [format_case_style, hl, CaseStyle.from_name, CaseStyle.converter, keep_case]
  · intro lf
    rw [legacy_format_definition_name]
    rfl

/-- C2 counterexample: the C-style formatter maps constants to the
"upper" case style, so a top-level constant `foo` with empty
`scope_stack` is formatted as `FOO`, not returned unchanged. -/
theorem claim_C2_counterexample :
    format_definition_name cfUpper constFoo = Except.ok "FOO" ∧
    ("FOO" : String) ≠ "foo" := ⟨by decide, by decide⟩

/-- C2 witness: with an empty case-style table the name does come back
unchanged, for the compiler and the legacy formatter. -/
theorem claim_C2_witness :
    format_definition_name cf0 constFoo = Except.ok "foo" ∧
    legacy_format_definition_name lf0 constFoo = "foo" := by
  have h := claim_C2 cf0 constFoo rfl
  exact ⟨h.2.1 rfl, h.2.2 lf0⟩

/-- C3 (amended): the compiler `format_type` and `format_constant_type`
raise InternalError on an unrecognized variant and are total over the
closed variant sets, but `format_value` falls off the end of its
dispatch chain and returns None (no fatal error), and the legacy
`format_type` returns the fallback string `"_unknown_type"`. -/
theorem claim_C3 (f : Formatter) :
    format_type f PType.unknown
      = Except.error (FmtError.internalError "unknown type for format_type") ∧
    format_constant_type f ConstantV.unknown
      = Except.error (FmtError.internalError "got unexpected constant type") ∧
    format_value f PyValue.unknown = none ∧
    (∀ lf : LegacyFormatter, legacy_format_type lf PType.unknown = "_unknown_type") ∧
    (∀ v : PyValue, v ≠ PyValue.unknown → (format_value f v).isSome = true) ∧
    (∀ c : ConstantV, c ≠ ConstantV.unknown →
      ∃ s, format_constant_type f c = Except.ok s) := by
  refine ⟨rfl, rfl, rfl, fun _ => rfl, ?_, ?_⟩
  · intro v hv
    cases v with
    | bool b => rfl
    | str s => rfl
    | int i => rfl
    | unknown => exact absurd rfl hv
  · intro c hc
    cases c with
    | booleanConstant => exact ⟨_, rfl⟩
    | stringConstant => exact ⟨_, rfl⟩
    | integerConstant => exact ⟨_, rfl⟩
    | unknown => exact absurd rfl hc

/-- C3 counterexample: an unrecognized Value reaching `format_value`
yields None rather than a fatal internal error, and an unrecognized
Type reaching the legacy `format_type` yields the fallback result
`"_unknown_type"` rather than an error. -/
theorem claim_C3_counterexample :
    format_value cf0 PyValue.unknown = none ∧
    legacy_format_type lf0 PType.unknown = "_unknown_type" := ⟨rfl, rfl⟩

/-- C3 witness: the totality conjuncts evaluated at concrete inputs. -/
theorem claim_C3_witness :
    (format_value cf0 (PyValue.bool true)).isSome = true ∧
    ∃ s, format_constant_type cf0 ConstantV.integerConstant = Except.ok s := by
  have h := claim_C3 cf0
  exact ⟨h.2.2.2.2.1 (PyValue.bool true) (by simp),
    h.2.2.2.2.2 ConstantV.integerConstant (by simp)⟩

/-- C4 (amended): `render_string` produces every block's render-phase
text in declaration order, then the defer-phase text of each block
that implements `defer()` in reverse declaration order (a block
lacking `defer()` contributes no piece and raises no error), joined
with one blank line between ALL adjacent collected pieces - empty
pieces are not dropped, so an empty render or defer output still
contributes a separator. -/
theorem claim_C4 (blocks : List Block) :
    render_string blocks =
      String.intercalate "\n\n"
        (blocks.map (fun b => String.intercalate "\n" b.renderLines)
          ++ blocks.reverse.filterMap
              (fun b => b.deferLines.map (String.intercalate "\n"))) := by
  have hzip : blocks.zip (blocks.map (fun _ => (⟨[]⟩ : BlockSt)))
      = blocks.map (fun b => (b, (⟨[]⟩ : BlockSt))) := by
    simpa using List.zip_map' id (fun _ => (⟨[]⟩ : BlockSt)) blocks
  have h1 : List.map (Prod.fst ∘ renderPhase) blocks
      = blocks.map (fun b => String.intercalate "\n" b.renderLines) := by
    simp [Function.comp_def, renderPhase_eq]
  have h2 : List.map (Prod.snd ∘ renderPhase) blocks
      = blocks.map (fun _ => (⟨[]⟩ : BlockSt)) := by
    simp [Function.comp_def, renderPhase_eq]
  have h3 : ∀ b : Block, (deferPhase b ⟨[]⟩).map Prod.fst
      = b.deferLines.map (String.intercalate "\n") := by
    intro b
    simp [deferPhase, collect, blockStr, blockClear, pushLines_strings,
      Option.map_map, Function.comp_def]
  simp only [render_string]
  rw [List.map_map, List.map_map, h1, h2, hzip]
  congr 1
  congr 1
  rw [show (blocks.map (fun b => (b, (⟨[]⟩ : BlockSt)))).reverse
      = blocks.reverse.map (fun b => (b, (⟨[]⟩ : BlockSt))) from by
    simp [List.map_reverse]]
  rw [List.filterMap_map]
  simp only [Function.comp_def, h3]

/-- C4 counterexample: with a first block rendering `a` and a second
block rendering nothing, the code joins the empty collected piece too,
producing a trailing blank-line separator, while joining only the
non-empty pieces (as the claim words it) would give just `a`. -/
theorem claim_C4_counterexample :
    render_string [⟨["a"], none⟩, ⟨[], none⟩] = "a\n\n" ∧
    render_string_spec [⟨["a"], none⟩, ⟨[], none⟩] = "a" ∧
    render_string [⟨["a"], none⟩, ⟨[], none⟩]
      ≠ render_string_spec [⟨["a"], none⟩, ⟨[], none⟩] := by
  refine ⟨rfl, rfl, by decide⟩

/-- C5: `format_value` and the legacy `format_literal` route every
boolean to the boolean-literal hook - never the integer hook - because
the boolean test comes first, even though a boolean also satisfies the
integer predicate (`isinstance(True, int)` holds in Python). -/
theorem claim_C5 (f : Formatter) (lf : LegacyFormatter) (b : Bool) :
    format_value f (PyValue.bool b) = some (f.format_bool_value b) ∧
    legacy_format_literal lf (PyValue.bool b) = some (lf.format_bool_literal b) ∧
    isinstance_int (PyValue.bool b) = true := ⟨rfl, rfl, rfl⟩

/-- C6: `render` with an unregistered language tag fails with
UnsupportedLanguageToRender, with no renderer constructed and no file
written; with a registered tag it constructs and renders each
registered class in registry order and returns the produced paths. -/
theorem claim_C6 (outPath : RendererCls → String) (lang : String) :
    (get_renderer_cls lang = none →
      render outPath lang = ([], Except.error RenderErr.unsupportedLanguageToRender)) ∧
    (∀ clss, get_renderer_cls lang = some clss →
      render outPath lang =
        (clss.flatMap (fun c => [RenderEvent.construct c, RenderEvent.write (outPath c)]),
         Except.ok (clss.map outPath))) := by
  constructor
  · intro h
    simp [render, h]
  · intro clss h
    simp [render, h]

/-- C6 witness: the unregistered tag `rust` and the registered tag `c`
(two renderer classes, two paths) evaluated concretely. -/
theorem claim_C6_witness :
    render (fun _ => "p") "rust" = ([], Except.error RenderErr.unsupportedLanguageToRender) ∧
    render (fun _ => "p") "c" =
      ([RenderEvent.construct .rendererC, RenderEvent.write "p",
        RenderEvent.construct .rendererCHeader, RenderEvent.write "p"],
       Except.ok ["p", "p"]) := by
  refine ⟨(claim_C6 (fun _ => "p") "rust").1 rfl, ?_⟩
  have h := (claim_C6 (fun _ => "p") "c").2 [.rendererC, .rendererCHeader] rfl
  exact h.trans rfl

/-- C7: `format_case_style` raises InternalError on a table entry that
is neither a style name, a tuple of style names, nor a callable; a
tuple of style names is applied one by one left to right; a class
absent from the table resolves to the identity "keep" conversion. -/
theorem claim_C7 (f : Formatter) (s : String) (c : DefClass) :
    (lookupEntry f c = some CaseEntry.invalid →
      format_case_style f s c
        = Except.error (FmtError.internalError "invalid case_style mapping value")) ∧
    (∀ names, lookupEntry f c = some (CaseEntry.styleTuple names) →
      format_case_style f s c
        = Except.ok (names.foldl (fun acc n => (CaseStyle.from_name n).converter acc) s)) ∧
    (lookupEntry f c = none → format_case_style f s c = Except.ok s) := by
  refine ⟨?_, ?_, ?_⟩
  · intro h
    simp [format_case_style, h]
  · intro names h
    simp [format_case_style, h]
  · intro h
    simp [format_case_style, h, CaseStyle.from_name, CaseStyle.converter, keep_case]

/-- C7 witness: an invalid entry errors; the tuple ("snake", "upper")
applied left to right turns `fooBar` into `FOO_BAR`; an absent class
keeps the string. -/
theorem claim_C7_witness :
    format_case_style cfInvalid "x" .message
      = Except.error (FmtError.internalError "invalid case_style mapping value") ∧
    format_case_style cfTuple "fooBar" .enumField = Except.ok "FOO_BAR" ∧
    format_case_style cf0 "x" .message = Except.ok "x" := by
  refine ⟨(claim_C7 cfInvalid "x" .message).1 rfl, ?_,
    (claim_C7 cf0 "x" .message).2.2 rfl⟩
  have h := (claim_C7 cfTuple "fooBar" .enumField).2.1 ["snake", "upper"] rfl
  exact h.trans (by decide)

/-- C8: `Block.collect()` is consume-once: it returns the buffered text
and empties the buffer, so an immediate second `collect()` with no
intervening writes returns empty content. -/
theorem claim_C8 (st : BlockSt) (t : String) (st' : BlockSt)
    (h : collect st = (t, st')) (hne : t ≠ "") :
    (collect st').1 = "" ∧ st'.strings = [] := by
  have h2 : st' = ⟨[]⟩ := by
    have := congrArg Prod.snd h
    simpa [collect, blockClear] using this.symm
  subst h2
  exact ⟨rfl, rfl⟩

/-- C8 witness: collecting a buffer holding `x` and collecting again
yields empty content. -/
theorem claim_C8_witness :
    (collect ((collect ⟨["x"]⟩).2)).1 = "" :=
  (claim_C8 ⟨["x"]⟩ "x" ⟨[]⟩ rfl (by decide)).1

/-- C9: `get_nbits_of_integer` (and the legacy
`nbits_from_integer_type`, which agrees with it) maps byte counts by
the table 1 to 8, 2 to 16, 3 or 4 to 32, 5 through 8 to 64, and any
larger count to exactly bytes*8; on 1..9 it yields
8,16,32,32,64,64,64,64,72. -/
theorem claim_C9 (t : IntegerT) :
    (t.nbytes = 1 → get_nbits_of_integer t = 8) ∧
    (t.nbytes = 2 → get_nbits_of_integer t = 16) ∧
    (t.nbytes = 3 ∨ t.nbytes = 4 → get_nbits_of_integer t = 32) ∧
    (5 ≤ t.nbytes ∧ t.nbytes ≤ 8 → get_nbits_of_integer t = 64) ∧
    (8 < t.nbytes → get_nbits_of_integer t = t.nbytes * 8) ∧
    nbits_from_integer_type t = get_nbits_of_integer t ∧
    List.map (fun n => get_nbits_of_integer ⟨n⟩) [1, 2, 3, 4, 5, 6, 7, 8, 9]
      = [8, 16, 32, 32, 64, 64, 64, 64, 72] := by
  obtain ⟨n⟩ := t
  have he : ∀ m : Nat, get_nbits_of_integer ⟨m⟩
      = if m = 1 then 8 else if m = 2 then 16 else if m = 3 ∨ m = 4 then 32
        else if m = 5 ∨ m = 6 ∨ m = 7 ∨ m = 8 then 64 else m * 8 := fun _ => rfl
  refine ⟨?_, ?_, ?_, ?_, ?_, rfl, by decide⟩ <;>
    · intro h
      dsimp only at h ⊢
      rw [he]
      split_ifs <;> omega

/-- C9 witness: the table evaluated at byte counts 1, 2, 4, 6 and 9. -/
theorem claim_C9_witness :
    get_nbits_of_integer ⟨1⟩ = 8 ∧ get_nbits_of_integer ⟨2⟩ = 16 ∧
    get_nbits_of_integer ⟨4⟩ = 32 ∧ get_nbits_of_integer ⟨6⟩ = 64 ∧
    get_nbits_of_integer ⟨9⟩ = 72 :=
  ⟨(claim_C9 ⟨1⟩).1 rfl, (claim_C9 ⟨2⟩).2.1 rfl,
   (claim_C9 ⟨4⟩).2.2.1 (Or.inr rfl),
   (claim_C9 ⟨6⟩).2.2.2.1 ⟨by decide, by decide⟩,
   ((claim_C9 ⟨9⟩).2.2.2.2.1 (by decide)).trans (by decide)⟩

/-- C10: a case-style table entry whose string is not "snake", "upper"
or "pascal" maps through `CaseStyle.from_name` to KEEP, so
`format_case_style` returns the string unchanged and raises no error -
a misspelled style name is silently treated as keep. -/
theorem claim_C10 (f : Formatter) (s : String) (c : DefClass) (nm : String)
    (h1 : lookupEntry f c = some (CaseEntry.styleName nm))
    (h2 : nm ≠ "snake") (h3 : nm ≠ "upper") (h4 : nm ≠ "pascal") :
    CaseStyle.from_name nm = CaseStyle.KEEP ∧
    format_case_style f s c = Except.ok s := by
  have hk : CaseStyle.from_name nm = .KEEP := by
    simp [CaseStyle.from_name, h2, h3, h4]
  refine ⟨hk, ?_⟩
  simp [format_case_style, h1, hk, CaseStyle.converter, keep_case]

/-- C10 witness: the misspelled style name "snayk" keeps `Foo`
unchanged. -/
theorem claim_C10_witness :
    CaseStyle.from_name "snayk" = CaseStyle.KEEP ∧
    format_case_style cfMisspelled "Foo" .constant = Except.ok "Foo" :=
  claim_C10 cfMisspelled "Foo" .constant "snayk" rfl
    (by decide) (by decide) (by decide)

end Bitproto
